import Mathlib

/-
Verification of the bootstrap shim in src/julia_init.c.

The shim forwards process arguments to the runtime, locates the support
library, derives the depot directory from the library's path with two
chained dirname calls, writes two environment variables with putenv,
stores the sysimage path into jl_options.image_file, and finally calls
julia_init; shutdown_julia passes the exit code to jl_atexit_hook.

C strings are modelled as lists of characters (the bytes before the
terminating NUL).  The process environment is an association list from
keys to values; putenv splits its "KEY=VALUE" argument at the first '='
and replaces the entry for KEY in place, appending when absent, which is
the observable value-level behaviour of POSIX putenv.  External calls
(uv_setup_args, libsupport_init, jl_parse_opts, jl_load_dynamic_library,
jl_error, exit, julia_init, jl_atexit_hook) are recorded in an event
trace.
-/

namespace JuliaInit

/-- A C string value: the characters before the terminating NUL. -/
abbrev CStr := List Char

/-- Character test used by the dirname model. -/
def isSlash (c : Char) : Bool := c == '/'

/-- Negation of isSlash, named so that proofs can speak about it. -/
def notSlash (c : Char) : Bool := !(isSlash c)

/-- POSIX dirname on string values (libgen.h dirname, value level):
strip trailing slashes, then strip the last path component, then strip
the trailing slashes that remain; degenerate cases give "." or "/".
This is pure string arithmetic: no filesystem access of any kind. -/
def dirname (p : CStr) : CStr :=
  if p.reverse.dropWhile isSlash = [] then
    (if p = [] then ['.'] else ['/'])
  else if (p.reverse.dropWhile isSlash).dropWhile notSlash = [] then
    ['.']
  else if ((p.reverse.dropWhile isSlash).dropWhile notSlash).dropWhile isSlash = [] then
    ['/']
  else
    (((p.reverse.dropWhile isSlash).dropWhile notSlash).dropWhile isSlash).reverse

/-- Contents of the caller's buffer after glibc's dirname(3) returns:
glibc computes the result by writing a NUL terminator into the argument
buffer and returning the argument pointer, except when the result is
".", which is returned from static storage and leaves the buffer
untouched.  So after the call the buffer reads as the dirname result
whenever that result is not ".". -/
def dirnameBuf (p : CStr) : CStr :=
  if dirname p = ['.'] then p else dirname p

/-- The process environment: an ordered list of key/value pairs. -/
abbrev Env := List (CStr × CStr)

/-- Look a key up in the environment (getenv). -/
def getVar (e : Env) (k : CStr) : Option CStr :=
  match e with
  | [] => none
  | kv :: rest => if kv.fst = k then some kv.snd else getVar rest k

/-- Replace the value stored for a key, appending when the key is new. -/
def setVar (e : Env) (k v : CStr) : Env :=
  match e with
  | [] => [(k, v)]
  | kv :: rest => if kv.fst = k then (k, v) :: rest else kv :: setVar rest k v

/-- Split a "KEY=VALUE" string at the first '=' (putenv's parse). -/
def splitEnvString (s : CStr) : CStr × CStr :=
  (s.takeWhile (fun c => !(c == '=')), (s.dropWhile (fun c => !(c == '='))).drop 1)

/-- Value-level model of putenv(3): install KEY=VALUE, replacing any
existing entry for KEY. -/
def putenv (e : Env) (s : CStr) : Env :=
  setVar e (splitEnvString s).fst (splitEnvString s).snd

/-- PATH_MAX from limits.h on the primary (Linux) target. -/
def PATH_MAX : Nat := 4096

/-- Size of the local buffer in set_depot_path: char buf[PATH_MAX + 20]. -/
def DEPOT_BUF_SIZE : Nat := PATH_MAX + 20

/-- The fixed part of the snprintf format "JULIA_DEPOT_PATH=%s/". -/
def depotEnvLead : CStr := "JULIA_DEPOT_PATH=".data

/-- The environment key written for the depot. -/
def depotKey : CStr := "JULIA_DEPOT_PATH".data

/-- The literal putenv argument for the load path. -/
def loadEnvStr : CStr := "JULIA_LOAD_PATH=@".data

/-- The environment key written for the load path. -/
def loadKey : CStr := "JULIA_LOAD_PATH".data

/-- The fixed load-path sentinel value "@" (current project). -/
def atSentinel : CStr := "@".data

/-- Model of set_depot_path.  The C source is

  char buf[PATH_MAX + 20];
  snprintf(buf, sizeof(buf), "JULIA_DEPOT_PATH=%s/", dirname(dirname(sysimage_path)));
  putenv(buf);
  putenv("JULIA_LOAD_PATH=@");

snprintf writes at most sizeof(buf) - 1 characters plus the NUL, hence
the take.  The first component of the result is the environment after
the two putenv calls; the second component is the string value left in
the sysimage_path buffer, which the chained glibc dirname calls have
truncated in place (see dirnameBuf). -/
def set_depot_path (env : Env) (sysimage_path : CStr) : Env × CStr :=
  let buf : CStr :=
    (depotEnvLead ++ (dirname (dirname sysimage_path) ++ ['/'])).take (DEPOT_BUF_SIZE - 1)
  (putenv (putenv env buf) loadEnvStr,
   dirnameBuf (dirnameBuf sysimage_path))

/-- External calls made by the shim, in program order. -/
inductive Event where
  | uv_setup_args : Int → List CStr → Event
  | libsupport_init : Event
  | jl_parse_opts : Event
  | jl_load_dynamic_library : CStr → Event
  | jl_error : CStr → Event
  | exit_call : Int → Event
  | julia_init_call : Event
  | jl_atexit_hook : Int → Event
  deriving DecidableEq

/-- The diagnostic printed when the library name is missing. -/
def sysimage_error_msg : CStr :=
  "Please specify `libname` when requesting the sysimage path".data

/-- Trace of setup_args: uv_setup_args, libsupport_init, jl_parse_opts,
in that order. -/
def setup_args (argc : Int) (argv : List CStr) : List Event :=
  [Event.uv_setup_args argc argv, Event.libsupport_init, Event.jl_parse_opts]

/-- Outcome of get_sysimage_path: the external calls it made, the
resolved library path when it returned, and the exit status when it
terminated the process instead. -/
structure LocateOutcome where
  events : List Event
  result : Option CStr
  exited : Option Int
  deriving DecidableEq

/-- Model of get_sysimage_path.  With libname == NULL it calls jl_error
with a diagnostic and exit(1), never reaching the loader; otherwise it
opens the library with jl_load_dynamic_library(libname, JL_RTLD_DEFAULT, 0)
and returns jl_pathname_for_handle(handle).  The composite behaviour of
those two loader calls (name to resolved absolute path) is the external
parameter resolve. -/
def get_sysimage_path (resolve : CStr → CStr) (libname : Option CStr) : LocateOutcome :=
  match libname with
  | none =>
      { events := [Event.jl_error sysimage_error_msg, Event.exit_call 1]
      , result := none
      , exited := some 1 }
  | some name =>
      { events := [Event.jl_load_dynamic_library name]
      , result := some (resolve name)
      , exited := none }

/-- State after init_julia: the external-call trace, the final
environment, the C-string value that jl_options.image_file points at
(none when never assigned), and the exit status when the process
terminated during initialization. -/
structure InitResult where
  events : List Event
  env : Env
  image_file : Option CStr
  exited : Option Int
  deriving DecidableEq

/-- Model of init_julia: setup_args, then get_sysimage_path, then
set_depot_path, then the assignment jl_options.image_file =
sysimage_path, then julia_init.  The assignment happens after
set_depot_path has already run dirname(dirname(sysimage_path)) on the
very buffer sysimage_path points to, so the value image_file ends up
holding is the buffer's post-call contents, the second component of
set_depot_path. -/
def init_julia (resolve : CStr → CStr) (libname : Option CStr) (argc : Int)
    (argv : List CStr) (env0 : Env) : InitResult :=
  let loc := get_sysimage_path resolve libname
  match loc.result with
  | none =>
      { events := setup_args argc argv ++ loc.events
      , env := env0
      , image_file := none
      , exited := loc.exited }
  | some sysimage_path =>
      let r := set_depot_path env0 sysimage_path
      { events := setup_args argc argv ++ loc.events ++ [Event.julia_init_call]
      , env := r.fst
      , image_file := some r.snd
      , exited := none }

/-- Model of shutdown_julia(retcode): a single call to
jl_atexit_hook(retcode). -/
def shutdown_julia (retcode : Int) : List Event :=
  [Event.jl_atexit_hook retcode]

/-- Addressed store for the argument-forwarding frame model: integer
cells (argc variables) and string-array cells (argv variables),
indexed by abstract addresses. -/
structure ArgStore where
  intAt : Nat → Int
  strsAt : Nat → List CStr

/-- Write an integer cell. -/
def writeIntCell (s : ArgStore) (a : Nat) (v : Int) : ArgStore :=
  { s with intAt := fun x => if x = a then v else s.intAt x }

/-- Write a string-array cell. -/
def writeStrsCell (s : ArgStore) (a : Nat) (v : List CStr) : ArgStore :=
  { s with strsAt := fun x => if x = a then v else s.strsAt x }

/-- Model of jl_parse_opts(&argc, &argv): the parser receives the two
addresses and may consume or rewrite the argument list arbitrarily
through them; its unknown behaviour is the parameter rw.  It writes
only through the two addresses it was given. -/
def jl_parse_opts_model (rw : Int × List CStr → Int × List CStr)
    (pargc pargv : Nat) (s : ArgStore) : ArgStore :=
  let r := rw (s.intAt pargc, s.strsAt pargv)
  writeStrsCell (writeIntCell s pargc r.fst) pargv r.snd

/-- Frame model of the call setup_args(argc, argv): C passes argc and
argv by value, so the callee's parameters occupy fresh cells paramArgc
and paramArgv, initialized from the caller's cells; setup_args then
passes the addresses of its own parameter cells to jl_parse_opts. -/
def setup_args_mem (rw : Int × List CStr → Int × List CStr)
    (callerArgc callerArgv paramArgc paramArgv : Nat) (s : ArgStore) : ArgStore :=
  let s1 := writeIntCell s paramArgc (s.intAt callerArgc)
  let s2 := writeStrsCell s1 paramArgv (s.strsAt callerArgv)
  jl_parse_opts_model rw paramArgc paramArgv s2

/-- A concrete store used to instantiate the frame theorem. -/
def argStore0 : ArgStore := { intAt := fun _ => 0, strsAt := fun _ => [] }

/-- A concrete option-parser behaviour used to instantiate the frame
theorem: consume every argument. -/
def rwEx : Int × List CStr → Int × List CStr := fun q => (q.fst + 1, [])

/-- The spec's worked example path. -/
def examplePath : CStr := "/opt/app/lib/x86/image.so".data

/-- The depot directory the code actually derives from examplePath. -/
def exDir : CStr := "/opt/app/lib".data

/-- The depot directory with the trailing separator appended. -/
def exDirSlash : CStr := "/opt/app/lib/".data

/-- The intermediate directory component of examplePath. -/
def exParent : CStr := "x86".data

/-- The file component of examplePath. -/
def exFname : CStr := "image.so".data

/-- The tail of exDir reversed (exDir.reverse with its head removed). -/
def exDirRevTail : CStr := "il/ppa/tpo/".data

/-- The depot directory the spec example expects (wrongly). -/
def wrongDepot : CStr := "/opt/app".data

/-- The environment value the spec example expects (wrongly). -/
def wrongDepotVal : CStr := "/opt/app/".data

/-- A concrete library name for evaluation theorems. -/
def exampleLib : CStr := "libapp.so".data

/-- A concrete argv entry for evaluation theorems. -/
def exampleArg : CStr := "app".data

/-- A short concrete path for evaluation theorems. -/
def pABC : CStr := "/a/b/c".data

/-- The depot value the code derives from pABC. -/
def valA : CStr := "/a/".data

/-- The un-prefixed depot key named by the spec. -/
def plainDepotKey : CStr := "DEPOT_PATH".data

/-- The un-prefixed load-path key named by the spec. -/
def plainLoadKey : CStr := "LOAD_PATH".data

/- ------------------------------------------------------------------ -/
/- Helper lemmas about lists, the environment table and splitting.    -/
/- ------------------------------------------------------------------ -/

/-- dropWhile skips a whole block on which the predicate holds. -/
theorem dropWhile_append_of_forall {q : Char → Bool} :
    ∀ (l1 l2 : List Char), (∀ x ∈ l1, q x = true) →
      List.dropWhile q (l1 ++ l2) = List.dropWhile q l2 := by
  intro l1
  induction l1 with
  | nil => intro l2 _; rfl
  | cons a t ih =>
      intro l2 h
      have ha : q a = true := h a (List.mem_cons_self a t)
      have ht : ∀ x ∈ t, q x = true := fun x hx => h x (List.mem_cons_of_mem a hx)
      simp [List.dropWhile_cons, ha, ih l2 ht]

/-- takeWhile keeps a whole block on which the predicate holds. -/
theorem takeWhile_append_of_forall {q : Char → Bool} :
    ∀ (l1 l2 : List Char), (∀ x ∈ l1, q x = true) →
      List.takeWhile q (l1 ++ l2) = l1 ++ List.takeWhile q l2 := by
  intro l1
  induction l1 with
  | nil => intro l2 _; rfl
  | cons a t ih =>
      intro l2 h
      have ha : q a = true := h a (List.mem_cons_self a t)
      have ht : ∀ x ∈ t, q x = true := fun x hx => h x (List.mem_cons_of_mem a hx)
      simp [List.takeWhile_cons, ha, ih l2 ht]

/-- take distributes over append when the bound covers the left part. -/
theorem take_append_of_le :
    ∀ (l1 l2 : List Char) (n : Nat), l1.length ≤ n →
      (l1 ++ l2).take n = l1 ++ l2.take (n - l1.length) := by
  intro l1
  induction l1 with
  | nil => intro l2 n _; simp
  | cons a t ih =>
      intro l2 n h
      cases n with
      | zero => simp at h
      | succ m =>
          have hm : t.length ≤ m := by simpa using h
          simp [List.take_succ_cons, ih l2 m hm, Nat.succ_sub_succ]

/-- take is the identity when the bound covers the whole list. -/
theorem take_all_of_le : ∀ (l : List Char) (n : Nat), l.length ≤ n → l.take n = l := by
  intro l
  induction l with
  | nil => intro n _; simp
  | cons a t ih =>
      intro n h
      cases n with
      | zero => simp at h
      | succ m => simp [List.take_succ_cons, ih m (by simpa using h)]

/-- A nonempty list reversed starts with one of its members. -/
theorem exists_rev_head {l : CStr} (h : l ≠ []) :
    ∃ y ys, l.reverse = y :: ys ∧ y ∈ l := by
  cases hr : l.reverse with
  | nil => exact absurd (List.reverse_eq_nil_iff.mp hr) h
  | cons y ys =>
      refine ⟨y, ys, rfl, ?_⟩
      have hy : y ∈ l.reverse := by rw [hr]; exact List.mem_cons_self y ys
      exact List.mem_reverse.mp hy

/-- splitEnvString cuts at the first '=' of a well-formed KEY=VALUE. -/
theorem splitEnvString_append (k v : CStr) (hk : ∀ c ∈ k, (!(c == '=')) = true) :
    splitEnvString (k ++ '=' :: v) = (k, v) := by
  unfold splitEnvString
  rw [takeWhile_append_of_forall k ('=' :: v) hk,
      dropWhile_append_of_forall k ('=' :: v) hk]
  simp [List.takeWhile_cons, List.dropWhile_cons]

/-- Reading back the key just written. -/
theorem getVar_setVar_self (e : Env) (k v : CStr) :
    getVar (setVar e k v) k = some v := by
  induction e with
  | nil => simp [setVar, getVar]
  | cons kv rest ih =>
      by_cases h : kv.fst = k
      · simp [setVar, getVar, h]
      · simp [setVar, getVar, h, ih]

/-- Writing one key does not disturb reads of another. -/
theorem getVar_setVar_ne (e : Env) (k k' v : CStr) (h : k' ≠ k) :
    getVar (setVar e k v) k' = getVar e k' := by
  induction e with
  | nil => simp [setVar, getVar, Ne.symm h]
  | cons kv rest ih =>
      by_cases hk : kv.fst = k
      · subst hk
        simp [setVar, getVar, Ne.symm h]
      · simp [setVar, getVar, hk, ih]

/-- Re-installing the value a key already has changes nothing. -/
theorem setVar_getVar_eq (e : Env) (k v : CStr) (h : getVar e k = some v) :
    setVar e k v = e := by
  induction e with
  | nil => simp [getVar] at h
  | cons kv rest ih =>
      by_cases hk : kv.fst = k
      · subst hk
        simp [getVar] at h
        simp [setVar, ← h]
      · have h' : getVar rest k = some v := by simpa [getVar, hk] using h
        simp [setVar, hk, ih h']

/-- The fixed snprintf lead decomposes into the key and '='. -/
theorem depotEnvLead_split : depotEnvLead = depotKey ++ ['='] := by decide

/-- Shape of the composed depot buffer after snprintf's truncation to
DEPOT_BUF_SIZE - 1 characters: the 17-character lead always survives. -/
theorem depot_buf_split (d : CStr) :
    (depotEnvLead ++ (d ++ ['/'])).take (DEPOT_BUF_SIZE - 1)
      = depotKey ++ '=' :: (d ++ ['/']).take (DEPOT_BUF_SIZE - 18) := by
  rw [take_append_of_le depotEnvLead (d ++ ['/']) (DEPOT_BUF_SIZE - 1) (by decide)]
  rw [show DEPOT_BUF_SIZE - 1 - depotEnvLead.length = DEPOT_BUF_SIZE - 18 from by decide]
  rw [depotEnvLead_split, List.append_assoc]
  rfl

/-- The environment produced by set_depot_path, for every input: the
depot key is bound to the (possibly truncated) depot directory with its
trailing slash, then the load key is bound to the sentinel. -/
theorem set_depot_path_env (env : Env) (p : CStr) :
    (set_depot_path env p).fst =
      setVar (setVar env depotKey
          ((dirname (dirname p) ++ ['/']).take (DEPOT_BUF_SIZE - 18)))
        loadKey atSentinel := by
  have h1 : splitEnvString ((depotEnvLead ++ (dirname (dirname p) ++ ['/'])).take (DEPOT_BUF_SIZE - 1))
      = (depotKey, (dirname (dirname p) ++ ['/']).take (DEPOT_BUF_SIZE - 18)) := by
    rw [depot_buf_split]
    exact splitEnvString_append _ _ (by decide)
  have h2 : splitEnvString loadEnvStr = (loadKey, atSentinel) := by decide
  show putenv (putenv env ((depotEnvLead ++ (dirname (dirname p) ++ ['/'])).take (DEPOT_BUF_SIZE - 1))) loadEnvStr = _
  unfold putenv
  rw [h1, h2]

/-- One dirname step on a path of the form d ++ "/" ++ comp where comp
is a nonempty slash-free component and d is nonempty and does not end
in a slash: exactly the last component is stripped, and no trailing
separator remains. -/
theorem dirname_append_component (d comp : CStr) (c : Char) (rs : CStr)
    (hd : d.reverse = c :: rs) (hc : isSlash c = false)
    (hcomp : comp ≠ []) (hall : ∀ x ∈ comp, isSlash x = false) :
    dirname (d ++ '/' :: comp) = d := by
  obtain ⟨y, ys, hyr, hym⟩ := exists_rev_head hcomp
  have hy : isSlash y = false := hall y hym
  have hrev : (d ++ '/' :: comp).reverse = comp.reverse ++ '/' :: d.reverse := by
    simp
  have h1 : (d ++ '/' :: comp).reverse.dropWhile isSlash = comp.reverse ++ '/' :: d.reverse := by
    rw [hrev, hyr]
    simp [List.dropWhile_cons, hy]
  have hall' : ∀ x ∈ comp.reverse, notSlash x = true := by
    intro x hx
    have hx' := hall x (List.mem_reverse.mp hx)
    simp [notSlash, hx']
  have h2 : (comp.reverse ++ '/' :: d.reverse).dropWhile notSlash = '/' :: d.reverse := by
    rw [dropWhile_append_of_forall comp.reverse ('/' :: d.reverse) hall']
    simp [List.dropWhile_cons, notSlash, isSlash]
  have h3 : ('/' :: d.reverse).dropWhile isSlash = d.reverse := by
    rw [hd]
    have hslash : isSlash '/' = true := by decide
    simp [List.dropWhile_cons, hslash, hc]
  have hne1 : ¬(comp.reverse ++ '/' :: d.reverse = []) := by simp
  have hne2 : ¬('/' :: d.reverse = []) := by simp
  have hne3 : ¬(d.reverse = []) := by simp [hd]
  unfold dirname
  rw [h1, h2, h3, if_neg hne1, if_neg hne2, if_neg hne3, List.reverse_reverse]

/- ------------------------------------------------------------------ -/
/- Claim theorems.                                                    -/
/- ------------------------------------------------------------------ -/

/-- Claim C1 (evaluation at the failing input): init_julia assigns
jl_options.image_file only after set_depot_path has run
dirname(dirname(sysimage_path)) on the buffer the resolved path lives
in; glibc's dirname truncates that buffer in place, so image_file ends
up holding the depot-level directory "/opt/app/lib" and not the
resolved image path — the resolved path string is modified. -/
theorem claim_C1 :
    (init_julia (fun _ => examplePath) (some exampleLib) 1 [exampleArg] []).image_file
        = some exDir ∧
    exDir ≠ examplePath := by decide

/-- Claim C2 (counterexample): on the spec's worked example
"/opt/app/lib/x86/image.so" the code's dirname(dirname(path)) is not
"/opt/app", and the composed depot value is not "/opt/app/". -/
theorem claim_C2_counterexample :
    dirname (dirname examplePath) ≠ wrongDepot ∧
    getVar (set_depot_path [] examplePath).fst depotKey ≠ some wrongDepotVal := by decide

/-- Claim C2 (amended): for the input "/opt/app/lib/x86/image.so" the
two chained dirname calls yield "/opt/app/lib", and the composed depot
environment value is exactly "/opt/app/lib/". -/
theorem claim_C2 :
    dirname (dirname examplePath) = exDir ∧
    getVar (set_depot_path [] examplePath).fst depotKey = some exDirSlash := by decide

/-- Claim C3: on the fixed layout dir/parent/fname (parent and fname
nonempty and slash-free, dir nonempty not ending in a slash, and short
enough that snprintf does not truncate), the two chained dirname calls
strip exactly the file name and its immediate parent directory by pure
string arithmetic, the result dir carries no trailing separator, and
the separator is appended only in the composed environment value. -/
theorem claim_C3 (dir parent fname : CStr) (c : Char) (rs : CStr) (env : Env)
    (hdir : dir.reverse = c :: rs) (hc : isSlash c = false)
    (hparent : parent ≠ []) (hpall : ∀ x ∈ parent, isSlash x = false)
    (hfname : fname ≠ []) (hfall : ∀ x ∈ fname, isSlash x = false)
    (hlen : dir.length ≤ PATH_MAX) :
    dirname (dirname (dir ++ '/' :: (parent ++ '/' :: fname))) = dir ∧
    getVar (set_depot_path env (dir ++ '/' :: (parent ++ '/' :: fname))).fst depotKey
      = some (dir ++ ['/']) := by
  have hassoc : dir ++ '/' :: (parent ++ '/' :: fname)
      = (dir ++ '/' :: parent) ++ '/' :: fname := by simp
  obtain ⟨y, ys, hyr, hym⟩ := exists_rev_head hparent
  have hy : isSlash y = false := hpall y hym
  have hdrev : (dir ++ '/' :: parent).reverse = y :: (ys ++ '/' :: dir.reverse) := by
    simp [hyr]
  have hstep1 : dirname ((dir ++ '/' :: parent) ++ '/' :: fname) = dir ++ '/' :: parent :=
    dirname_append_component (dir ++ '/' :: parent) fname y (ys ++ '/' :: dir.reverse)
      hdrev hy hfname hfall
  have hstep2 : dirname (dir ++ '/' :: parent) = dir :=
    dirname_append_component dir parent c rs hdir hc hparent hpall
  have hdd : dirname (dirname (dir ++ '/' :: (parent ++ '/' :: fname))) = dir := by
    rw [hassoc, hstep1, hstep2]
  refine ⟨hdd, ?_⟩
  have htake : (dir ++ ['/']).take (DEPOT_BUF_SIZE - 18) = dir ++ ['/'] := by
    apply take_all_of_le
    have he : DEPOT_BUF_SIZE - 18 = PATH_MAX + 2 := by decide
    rw [he]
    simp only [List.length_append, List.length_cons, List.length_nil]
    omega
  rw [set_depot_path_env, hdd, htake,
      getVar_setVar_ne _ _ _ _ (by decide), getVar_setVar_self]

/-- Claim C3 witness: the general theorem applied to the concrete
layout "/opt/app/lib" / "x86" / "image.so". -/
theorem claim_C3_witness :
    dirname (dirname (exDir ++ '/' :: (exParent ++ '/' :: exFname))) = exDir ∧
    getVar (set_depot_path [] (exDir ++ '/' :: (exParent ++ '/' :: exFname))).fst depotKey
      = some (exDir ++ ['/']) :=
  claim_C3 exDir exParent exFname 'b' exDirRevTail []
    (by decide) (by decide) (by decide) (by decide) (by decide) (by decide) (by decide)

/-- Claim C4 (counterexample): the configurator does not write keys
named DEPOT_PATH or LOAD_PATH; starting from an empty environment it
writes exactly JULIA_DEPOT_PATH and JULIA_LOAD_PATH. -/
theorem claim_C4_counterexample :
    getVar (set_depot_path [] pABC).fst plainDepotKey = none ∧
    getVar (set_depot_path [] pABC).fst plainLoadKey = none ∧
    (set_depot_path [] pABC).fst = [(depotKey, valA), (loadKey, atSentinel)] := by decide

/-- Claim C4 (amended): whenever the composed value fits the snprintf
buffer, the environment written by the configurator has exactly the
keys JULIA_DEPOT_PATH, bound to the resolved depot directory with its
required trailing separator, and JULIA_LOAD_PATH, bound to the fixed
literal sentinel "@". -/
theorem claim_C4 (p : CStr) (h : (dirname (dirname p)).length ≤ PATH_MAX + 1) :
    (set_depot_path [] p).fst
      = [(depotKey, dirname (dirname p) ++ ['/']), (loadKey, atSentinel)] := by
  rw [set_depot_path_env]
  have htake : (dirname (dirname p) ++ ['/']).take (DEPOT_BUF_SIZE - 18)
      = dirname (dirname p) ++ ['/'] := by
    apply take_all_of_le
    have he : DEPOT_BUF_SIZE - 18 = PATH_MAX + 2 := by decide
    rw [he]
    simp only [List.length_append, List.length_cons, List.length_nil]
    omega
  rw [htake]
  have hne : ¬(depotKey = loadKey) := by decide
  simp [setVar, hne]

/-- Claim C4 witness: the amended theorem at the concrete input
"/a/b/c". -/
theorem claim_C4_witness :
    (dirname (dirname pABC)).length ≤ PATH_MAX + 1 ∧
    (set_depot_path [] pABC).fst
      = [(depotKey, dirname (dirname pABC) ++ ['/']), (loadKey, atSentinel)] :=
  ⟨by decide, claim_C4 pABC (by decide)⟩

/-- Claim C5: with an absent (NULL) library name, init_julia reports
the diagnostic and terminates the process with the non-zero status 1,
never calls the runtime's init entry point, never reaches the loader,
and leaves the environment and the options structure untouched. -/
theorem claim_C5 (resolve : CStr → CStr) (argc : Int) (argv : List CStr) (env : Env) :
    (init_julia resolve none argc argv env).exited = some 1 ∧
    (init_julia resolve none argc argv env).env = env ∧
    (init_julia resolve none argc argv env).image_file = none ∧
    Event.julia_init_call ∉ (init_julia resolve none argc argv env).events ∧
    (∀ name : CStr, Event.jl_load_dynamic_library name ∉ (init_julia resolve none argc argv env).events) ∧
    Event.jl_error sysimage_error_msg ∈ (init_julia resolve none argc argv env).events := by
  refine ⟨rfl, rfl, rfl, ?_, ?_, ?_⟩
  · simp [init_julia, get_sysimage_path, setup_args]
  · intro name
    simp [init_julia, get_sysimage_path, setup_args]
  · simp [init_julia, get_sysimage_path, setup_args]

/-- Claim C6: after the configurator runs, the load-path variable holds
exactly the fixed sentinel "@", whatever the pre-existing environment
was — two runs over different prior environments agree (override,
never merge). -/
theorem claim_C6 (env1 env2 : Env) (p : CStr) :
    getVar (set_depot_path env1 p).fst loadKey = some atSentinel ∧
    getVar (set_depot_path env1 p).fst loadKey
      = getVar (set_depot_path env2 p).fst loadKey := by
  constructor
  · rw [set_depot_path_env, getVar_setVar_self]
  · rw [set_depot_path_env, set_depot_path_env, getVar_setVar_self, getVar_setVar_self]

/-- Claim C7: running the configurator a second time with the same
input path yields exactly the same environment (and the same buffer
contents): entries are replaced in place, never accumulated. -/
theorem claim_C7 (env : Env) (p : CStr) :
    set_depot_path (set_depot_path env p).fst p = set_depot_path env p := by
  have hne : depotKey ≠ loadKey := by decide
  have hfst : (set_depot_path (set_depot_path env p).fst p).fst = (set_depot_path env p).fst := by
    rw [set_depot_path_env ((set_depot_path env p).fst) p, set_depot_path_env env p]
    have g1 : getVar (setVar (setVar env depotKey
          ((dirname (dirname p) ++ ['/']).take (DEPOT_BUF_SIZE - 18)))
          loadKey atSentinel) depotKey
        = some ((dirname (dirname p) ++ ['/']).take (DEPOT_BUF_SIZE - 18)) := by
      rw [getVar_setVar_ne _ _ _ _ hne, getVar_setVar_self]
    rw [setVar_getVar_eq _ _ _ g1]
    exact setVar_getVar_eq _ _ _ (getVar_setVar_self _ _ _)
  have hsnd : (set_depot_path (set_depot_path env p).fst p).snd = (set_depot_path env p).snd := rfl
  exact Prod.ext hfst hsnd

/-- Claim C9: init_julia followed by shutdown_julia n invokes the
runtime's exit hook exactly once, with exactly the value n. -/
theorem claim_C9 (resolve : CStr → CStr) (name : CStr) (argc : Int)
    (argv : List CStr) (env : Env) (n : Int) :
    Event.jl_atexit_hook n ∈ (init_julia resolve (some name) argc argv env).events ++ shutdown_julia n ∧
    ∀ m : Int, Event.jl_atexit_hook m ∈ (init_julia resolve (some name) argc argv env).events ++ shutdown_julia n → m = n := by
  constructor
  · simp [init_julia, get_sysimage_path, setup_args, shutdown_julia]
  · intro m hm
    simp [init_julia, get_sysimage_path, setup_args, shutdown_julia] at hm
    exact hm

/-- Claim C10: setup_args hands jl_parse_opts the addresses of its own
by-value parameter cells, so whatever rewriting the parser performs
through those addresses, the caller's argc and argv cells are unchanged
when setup_args returns. -/
theorem claim_C10 (rw0 : Int × List CStr → Int × List CStr)
    (callerArgc callerArgv paramArgc paramArgv : Nat) (s : ArgStore)
    (hc : paramArgc ≠ callerArgc) (hv : paramArgv ≠ callerArgv) :
    (setup_args_mem rw0 callerArgc callerArgv paramArgc paramArgv s).intAt callerArgc
        = s.intAt callerArgc ∧
    (setup_args_mem rw0 callerArgc callerArgv paramArgc paramArgv s).strsAt callerArgv
        = s.strsAt callerArgv := by
  have hc' : ¬(callerArgc = paramArgc) := fun hh => hc hh.symm
  have hv' : ¬(callerArgv = paramArgv) := fun hh => hv hh.symm
  constructor <;>
    simp [setup_args_mem, jl_parse_opts_model, writeIntCell, writeStrsCell, hc', hv']

/-- Claim C10 witness: concrete distinct addresses and a parser that
consumes every argument. -/
theorem claim_C10_witness :
    (setup_args_mem rwEx 0 1 2 3 argStore0).intAt 0 = argStore0.intAt 0 ∧
    (setup_args_mem rwEx 0 1 2 3 argStore0).strsAt 1 = argStore0.strsAt 1 :=
  claim_C10 rwEx 0 1 2 3 argStore0 (by decide) (by decide)

end JuliaInit
